import Mathlib

/-!
Verification of the AIOS Pro capsule-compiler core against its design
specification.  The TypeScript sources are shallowly embedded: YAML/JSON
runtime values become the inductive `Val`, the per-session surface files
become an explicit map from (sessionId, fileName) to a `FileState`, and each
service function is translated into a pure Lean function over that state.
-/

namespace AiosPro

/-- A YAML/JSON-like runtime value as produced by `yaml.parse` /
`JSON.parse`.  JavaScript objects are modelled as association lists in
insertion order (string keys); `undefined` is modelled as absence of the key
(`Option.none` from lookups). -/
inductive Val where
  | null
  | bool (b : Bool)
  | num (n : Int)
  | str (s : String)
  | arr (elems : List Val)
  | obj (fields : List (String × Val))
  deriving Repr

/-- JavaScript truthiness of a value (`null`, `false`, `0`, `""` are falsy;
every object and array is truthy). -/
def truthy : Val → Bool
  | .null => false
  | .bool b => b
  | .num n => n != 0
  | .str s => s != ""
  | .arr _ => true
  | .obj _ => true

/-- JavaScript `a || b` on values. -/
def jsOr (a b : Val) : Val := if truthy a then a else b

/-- First-match association-list lookup (JavaScript property read on a plain
object). -/
def alookup : List (String × Val) → String → Option Val
  | [], _ => none
  | (k, v) :: rest, key => if k = key then some v else alookup rest key

/-- Property read `v[f]` for an object value; `none` models `undefined`
(non-objects have no own string properties we track). -/
def getField (v : Val) (f : String) : Option Val :=
  match v with
  | .obj fields => alookup fields f
  | _ => none

/-- JavaScript `typeof v === 'object' && v !== null` (arrays included). -/
def jsObjLike : Val → Bool
  | .obj _ => true
  | .arr _ => true
  | _ => false

/-- JavaScript `f in v` for object-typed values.  For arrays the own
properties are the canonical numeric indices (the `length` property is not
modelled; no code path in scope reads it). -/
def hasProp (v : Val) (f : String) : Bool :=
  match v with
  | .obj fields => (alookup fields f).isSome
  | .arr elems => (List.range elems.length).any (fun i => toString i = f)
  | _ => false

/-- Property access `v[f]` used after an `f in v` guard; for arrays the
numeric-string index selects the element. -/
def getProp (v : Val) (f : String) : Val :=
  match v with
  | .obj fields => (alookup fields f).getD .null
  | .arr elems =>
    (((List.range elems.length).find? (fun i => toString i = f)).bind
      (fun i => elems.get? i)).getD .null
  | _ => .null

/-- State of one backing surface file: missing (read throws), unreadable
(read succeeds but `yaml.parse` throws), or parsed to a value (`Val.null`
for an empty YAML document). -/
inductive FileState where
  | missing
  | unreadable
  | parsed (v : Val)
  deriving Repr

/-- The per-session document store: sessionId and file base name (the first
path segment, e.g. `"capsule"`) to file state. -/
def FS := String → String → FileState

/-- Point update of the store (a `writeFile`). -/
def setFile (fs : FS) (sid name : String) (st : FileState) : FS :=
  fun s n => if s = sid ∧ n = name then st else fs s n

/-- The five surface kinds of `SurfaceId`. -/
inductive SurfaceId where
  | capsule
  | trace
  | digr
  | sessionState
  | intuitionOutline
  deriving Repr, DecidableEq

/-- File base name of each surface kind (`{surfaceId}.yaml` on disk). -/
def surfaceName : SurfaceId → String
  | .capsule => "capsule"
  | .trace => "trace"
  | .digr => "digr"
  | .sessionState => "session-state"
  | .intuitionOutline => "intuition-outline"

/-- `getEmptySurface` from `fileService.ts`: the default (empty) shape of
each surface kind. -/
def getEmptySurface : SurfaceId → Val
  | .capsule => .obj
      [("head", .obj [("framing", .null), ("selectedTopics", .arr []),
                      ("turnContext", .null), ("userInput", .null)]),
       ("body", .obj [("recentTurns", .arr [])]),
       ("tail", .obj [("goals", .arr []), ("trajectory", .null),
                      ("pulse", .null), ("planning", .null)])]
  | .trace => .obj
      [("turnId", .null), ("userInput", .null), ("llm1Output", .null),
       ("llm2Output", .null), ("quad", .null), ("optimized", .null),
       ("intent", .null), ("timestamp", .null)]
  | .digr => .obj
      [("decisions", .arr []), ("insights", .arr []), ("goals", .arr []),
       ("relationships", .arr []), ("milestone", .null),
       ("contribution", .null), ("patterns", .arr []),
       ("refinements", .arr [])]
  | .sessionState => .obj
      [("lastTurnId", .null), ("turnCount", .num 0),
       ("activeGoals", .arr []), ("trajectory", .null)]
  | .intuitionOutline => .obj
      [("intuitions", .arr []), ("planning", .null), ("pulse", .null),
       ("suggestedFocus", .null)]

/-- `readSurface` from `fileService.ts`: `yaml.parse(text) || {}` on a
readable file, and the kind's default shape when reading or parsing throws. -/
def readSurface (fs : FS) (sessionId : String) (surfaceId : SurfaceId) : Val :=
  match fs sessionId (surfaceName surfaceId) with
  | .parsed v => jsOr v (.obj [])
  | _ => getEmptySurface surfaceId

/-- The order in which `createSession` materializes the surface files. -/
def surfaceList : List SurfaceId :=
  [.capsule, .trace, .digr, .sessionState, .intuitionOutline]

/-- `createSession` from `fileService.ts`: writes every surface kind's
default shape (serialization assumed round-tripping, so the written file
parses back to the same value). -/
def createSession (fs : FS) (sessionId : String) : FS :=
  surfaceList.foldl
    (fun f sf => setFile f sessionId (surfaceName sf) (.parsed (getEmptySurface sf)))
    fs

/-- The per-kind write strategies (`SURFACE_STRATEGIES`). -/
inductive WriteStrategy where
  | overwrite
  | shallowMerge
  | arrayAppend
  deriving Repr, DecidableEq

/-- `SURFACE_STRATEGIES` from `fileService.ts`. -/
def surfaceStrategy : SurfaceId → WriteStrategy
  | .trace => .overwrite
  | .digr => .arrayAppend
  | .intuitionOutline => .overwrite
  | .capsule => .shallowMerge
  | .sessionState => .shallowMerge

/-- Fields of an object value; a non-object spreads no string-keyed fields
(spreading a string would contribute index-keyed characters in JavaScript;
no code path in scope does that). -/
def Val.fieldsOf : Val → List (String × Val)
  | .obj fields => fields
  | _ => []

/-- JavaScript object spread `{...e, ...c}`: keys of `e` in order with
values overridden by `c` where present, then the keys of `c` not in `e`, in
order. -/
def spreadPairs (e c : List (String × Val)) : List (String × Val) :=
  (e.map (fun p => match alookup c p.1 with
    | some v => (p.1, v)
    | none => p)) ++
  c.filter (fun p => (alookup e p.1).isNone)

/-- The `shallow-merge` strategy `{...existing, ...content}`. -/
def shallowMerge (existing content : Val) : Val :=
  .obj (spreadPairs existing.fieldsOf content.fieldsOf)

/-- JavaScript `x || []` followed by array spread: an array spreads its
elements, any falsy value spreads nothing (a truthy non-array would throw in
JavaScript; no claim exercises that case and it is modelled as empty). -/
def arrOrEmpty : Option Val → List Val
  | some (.arr xs) => xs
  | _ => []

/-- Nullish strip: `undefined` and `null` are both "no value" for `??`. -/
def stripNull : Option Val → Option Val
  | some .null => none
  | o => o

/-- JavaScript `a ?? b ?? null`. -/
def nullishD (a b : Option Val) : Val :=
  match stripNull a with
  | some v => v
  | none =>
    match stripNull b with
    | some v => v
    | none => .null

/-- `mergeDigrArrays` from `fileService.ts`: concatenates the tracked array
fields and nullish-coalesces the scalar metadata fields, producing exactly
these eight keys. -/
def mergeDigrArrays (existing incoming : Val) : Val :=
  .obj
    [("decisions", .arr (arrOrEmpty (getField existing "decisions") ++
                         arrOrEmpty (getField incoming "decisions"))),
     ("insights", .arr (arrOrEmpty (getField existing "insights") ++
                        arrOrEmpty (getField incoming "insights"))),
     ("goals", .arr (arrOrEmpty (getField existing "goals") ++
                     arrOrEmpty (getField incoming "goals"))),
     ("relationships", .arr (arrOrEmpty (getField existing "relationships") ++
                             arrOrEmpty (getField incoming "relationships"))),
     ("milestone", nullishD (getField incoming "milestone")
                            (getField existing "milestone")),
     ("contribution", nullishD (getField incoming "contribution")
                               (getField existing "contribution")),
     ("patterns", .arr (arrOrEmpty (getField existing "patterns") ++
                        arrOrEmpty (getField incoming "patterns"))),
     ("refinements", .arr (arrOrEmpty (getField existing "refinements") ++
                           arrOrEmpty (getField incoming "refinements")))]

/-- `writeSurface` from `fileService.ts`: reads the existing file for the
merge strategies (`yaml.parse(...) || {}` with a catch-all fallback to `{}`),
applies the kind's strategy and writes the result back. -/
def writeSurface (fs : FS) (sessionId : String) (surfaceId : SurfaceId)
    (content : Val) : FS :=
  let strategy := surfaceStrategy surfaceId
  let existing : Val :=
    match strategy with
    | .overwrite => .obj []
    | _ =>
      match fs sessionId (surfaceName surfaceId) with
      | .parsed v => jsOr v (.obj [])
      | _ => .obj []
  let finalContent : Val :=
    match strategy with
    | .overwrite => content
    | .shallowMerge => shallowMerge existing content
    | .arrayAppend => mergeDigrArrays existing content
  setFile fs sessionId (surfaceName surfaceId) (.parsed finalContent)

/-- `sessionExists` from `fileService.ts`: a stat on the session directory;
modelled as: some surface file of the session is not missing. -/
def sessionExists (fs : FS) (sessionId : String) : Bool :=
  surfaceList.any (fun sf =>
    match fs sessionId (surfaceName sf) with
    | .missing => false
    | _ => true)

mutual

/-- JavaScript `String(v)` (template-literal interpolation).  Array
stringification joins element strings with commas, eliding `null` elements. -/
def jsToString : Val → String
  | .null => "null"
  | .bool b => cond b "true" "false"
  | .num n => toString n
  | .str s => s
  | .obj _ => "[object Object]"
  | .arr elems => jsArrToString elems
termination_by v => (sizeOf v, 0)

/-- String form of an array element inside `Array.prototype.toString`. -/
def jsElemToString : Val → String
  | .null => ""
  | v => jsToString v
termination_by v => (sizeOf v, 1)

/-- Comma join of array element strings. -/
def jsArrToString : List Val → String
  | [] => ""
  | [v] => jsElemToString v
  | v :: rest => jsElemToString v ++ "," ++ jsArrToString rest
termination_by l => (sizeOf l, 0)

end

/-- `Object.entries(v)`; arrays enumerate index/value pairs. -/
def jsEntries : Val → List (String × Val)
  | .obj fields => fields
  | .arr elems => (elems.enum.map (fun p => (toString p.1, p.2)))
  | _ => []

/-- JavaScript `a || b` on strings (empty string is falsy). -/
def jsOrStr (a b : String) : String := if a = "" then b else a

/-- `formatLabel` from `capsuleService.ts`: space before each capital,
uppercase the first character, trim. -/
def formatLabel (key : String) : String :=
  let spaced := String.mk (key.data.foldr
    (fun c acc => if c.isUpper then ' ' :: c :: acc else c :: acc) [])
  let capped :=
    match spaced.data with
    | [] => ""
    | c :: rest => String.mk (c.toUpper :: rest)
  capped.trim

/-- `indent` from `capsuleService.ts` (two spaces before every line). -/
def indent (text : String) : String :=
  String.intercalate "\n" ((text.splitOn "\n").map (fun line => "  " ++ line))

mutual

/-- `formatContent` from `capsuleService.ts`: renders a value as
LLM-readable text. -/
def formatContent : Val → String
  | .null => "(empty)"
  | .bool b => jsToString (.bool b)
  | .num n => jsToString (.num n)
  | .str s => jsToString (.str s)
  | .arr elems =>
    if elems.isEmpty then "(none)"
    else String.intercalate "\n" (formatItems elems)
  | .obj fields =>
    jsOrStr (String.intercalate "\n" (formatFields fields)) "(empty)"
termination_by v => (sizeOf v, 0)

/-- One rendered line (or block) per object field, in order. -/
def formatFields : List (String × Val) → List String
  | [] => []
  | (k, v) :: rest => formatField k v :: formatFields rest
termination_by l => (sizeOf l, 0)

/-- `formatField` from `capsuleService.ts`. -/
def formatField (key : String) (value : Val) : String :=
  let label := formatLabel key
  match value with
  | .null => label ++ ": (none)"
  | .arr elems =>
    if elems.isEmpty then label ++ ": (none)"
    else label ++ ":\n" ++ String.intercalate "\n" (formatItems elems)
  | .obj fields => label ++ ":\n" ++ indent (formatContent (.obj fields))
  | v => label ++ ": " ++ jsToString v
termination_by (sizeOf value, 1)

/-- One rendered line per array item, in order. -/
def formatItems : List Val → List String
  | [] => []
  | item :: rest => formatArrayItem item :: formatItems rest
termination_by l => (sizeOf l, 0)

/-- `formatArrayItem` from `capsuleService.ts` (the index parameter of the
source is unused and omitted). -/
def formatArrayItem (item : Val) : String :=
  if jsObjLike item then
    if hasProp item "turnId" && hasProp item "userInput" then
      "- Turn " ++ jsToString (getProp item "turnId") ++ ": " ++
        jsToString (getProp item "userInput")
    else if hasProp item "content" then
      "- " ++ jsToString (getProp item "content")
    else
      "- " ++ String.intercalate ", "
        ((jsEntries item).map (fun p => p.1 ++ ": " ++ jsToString p.2))
  else
    "- " ++ jsToString item

end

/-- Character-list worker for `jsSplitDot`. -/
def splitCharsOnDot : List Char → List String
  | [] => [""]
  | c :: rest =>
    let r := splitCharsOnDot rest
    if c = '.' then "" :: r
    else
      match r with
      | [] => [String.mk [c]]
      | s0 :: tl => String.mk (c :: s0.data) :: tl

/-- JavaScript `s.split('.')` (structural recursion so that concrete paths
evaluate; same behavior as splitting on a one-character separator). -/
def jsSplitDot (s : String) : List String := splitCharsOnDot s.data

/-- A resolved capsule variable (`ResolvedVariable` from `types/capsule`). -/
structure ResolvedVariable where
  path : String
  marker : String
  content : Val
  deriving Repr

/-- An assembled capsule (`AssembledCapsule` from `types/capsule`).  The
source names the second field `variables`, a reserved word in Lean. -/
structure AssembledCapsule where
  text : String
  vars : List ResolvedVariable
  deriving Repr

/-- `deriveMarker` from `capsuleService.ts`, parameterized by the
`MARKER_MAP` table (declared in `types/capsule`, outside the sources in
scope): explicit mapping first, else last segment uppercased for nested
paths, else the whole path uppercased with `-` replaced by `_`. -/
def deriveMarker (markerMap : String → Option String) (variablePath : String) :
    String :=
  match markerMap variablePath with
  | some m => m
  | none =>
    let parts := jsSplitDot variablePath
    if parts.length > 1 then (parts.getLastD "").toUpper
    else (variablePath.toUpper).replace "-" "_"

/-- The nested-field loop of `resolveVariable`: at each segment the value
must be a truthy object-typed value owning the segment, otherwise the
content becomes `null` and the loop breaks. -/
def descend : Val → List String → Val
  | content, [] => content
  | content, field :: rest =>
    if truthy content && jsObjLike content && hasProp content field then
      descend (getProp content field) rest
    else .null

/-- `resolveVariable` from `capsuleService.ts`: the first path segment names
the surface file (read and parsed, `null` on any throw), the remaining
segments descend; the traversal only runs when the surface value is truthy
and the field path is non-empty. -/
def resolveVariable (markerMap : String → Option String) (fs : FS)
    (sessionId variablePath : String) : ResolvedVariable :=
  let parts := jsSplitDot variablePath
  let surfaceId := parts.headD ""
  let fieldPath := parts.drop 1
  let surface : Val :=
    match fs sessionId surfaceId with
    | .parsed v => v
    | _ => .null
  let content : Val :=
    if truthy surface && decide (0 < fieldPath.length) then
      descend surface fieldPath
    else surface
  { path := variablePath
    marker := deriveMarker markerMap variablePath
    content := content }

/-- `formatSection` from `capsuleService.ts`:
header line, newline, rendered content. -/
def formatSection (v : ResolvedVariable) : String :=
  "[" ++ v.marker ++ ": " ++ v.path ++ "]" ++ "\n" ++ formatContent v.content

/-- JavaScript truthiness of the optional `userInput` argument. -/
def jsTruthyOptStr : Option String → Bool
  | some s => s ≠ ""
  | none => false

/-- `assembleCapsule` from `capsuleService.ts`: pushes one marked section
per resolved variable, then a `[USER]` section when `userInput` is truthy,
and joins with blank lines. -/
def assembleCapsule (resolvedVariables : List ResolvedVariable)
    (userInput : Option String) : AssembledCapsule :=
  let sections := resolvedVariables.foldl
    (fun acc v => acc ++ [formatSection v]) []
  let sections :=
    if jsTruthyOptStr userInput then
      sections ++ ["[USER]" ++ "\n" ++ userInput.getD ""]
    else sections
  { text := String.intercalate "\n\n" sections
    vars := resolvedVariables }

/-- `RETRY_DELAYS` from `retryService.ts` (milliseconds). -/
def RETRY_DELAYS : List Nat := [0, 1000, 3000]

/-- Elapsed delay slept before the 0-based attempt `attempt`: the source
sleeps `RETRY_DELAYS[attempt - 1]` when `attempt > 0` and that entry is
truthy; a skipped `sleep(0)` and an out-of-range (`undefined`, falsy) entry
both elapse 0 ms. -/
def retrySleep (attempt : Nat) : Nat :=
  if attempt > 0 then RETRY_DELAYS.getD (attempt - 1) 0 else 0

/-- Observable trace of one `withRetry` run: the final result, the number
of attempts executed, and the elapsed delay before each attempt after the
first. -/
structure RetryTrace (α : Type) where
  result : Except String α
  attempts : Nat
  gaps : List Nat
  deriving Repr

/-- The attempt loop of `withRetry`, with the wrapped function modelled as
a map from 0-based attempt index to that attempt's outcome.  `remaining`
is the fuel `maxRetries - attempt` of the `for` loop. -/
def withRetryGo (fn : Nat → Except String α) :
    Nat → Nat → Option String → RetryTrace α
  | 0, attempt, lastError =>
    { result := .error (lastError.getD "All retry attempts failed")
      attempts := attempt
      gaps := [] }
  | remaining + 1, attempt, _lastError =>
    let gaps₀ : List Nat := if attempt > 0 then [retrySleep attempt] else []
    match fn attempt with
    | .ok v => { result := .ok v, attempts := attempt + 1, gaps := gaps₀ }
    | .error e =>
      let rest := withRetryGo fn remaining (attempt + 1) (some e)
      { result := rest.result
        attempts := rest.attempts
        gaps := gaps₀ ++ rest.gaps }

/-- `withRetry` from `retryService.ts` (`maxRetries` defaults to 3 at every
call site in scope). -/
def withRetry (fn : Nat → Except String α) (maxRetries : Nat) : RetryTrace α :=
  withRetryGo fn maxRetries 0 none

/-- Ways a `streamLLM` call can fail, as observed by its consumer. -/
inductive StreamFailure where
  | abortError
  | serviceError (status : Nat)
  | noBody
  | timedOut (msg : String)
  deriving Repr, DecidableEq

/-- The single timeout message `streamLLM` throws whenever the shared abort
signal is found set in its catch block. -/
def streamTimeoutMsg : String :=
  "LLM stream timed out - no data received within timeout period"

/-- One streaming call's external circumstances: whether the shared abort
signal fired before response headers arrived (the connect window), the HTTP
status, whether a body reader was available, the decoded text chunks read
before the stream ended, and whether the signal fired while reading (the
idle window) after those chunks. -/
structure StreamInput where
  abortBeforeHeaders : Bool
  status : Nat
  hasBody : Bool
  chunks : List String
  abortDuringRead : Bool
  deriving Repr

/-- `response.ok`. -/
def responseOk (status : Nat) : Bool := 200 ≤ status && status < 300

/-- What a `streamLLM` consumer observes: the events yielded, then either
normal completion or a failure. -/
structure StreamOutcome where
  events : List Val
  result : Except StreamFailure Unit
  deriving Repr

/-- The SSE line loop of `streamLLM`: each chunk is appended to the buffer,
the buffer is split on newlines keeping the trailing incomplete line, and
every complete `data: ` line is JSON-parsed (unparsable lines are skipped).
`jsonParse` abstracts `JSON.parse` (`none` models a throw). -/
def processChunks (jsonParse : String → Option Val) :
    List String → String → List Val
  | [], _buffer => []
  | chunk :: rest, buffer =>
    let combined := buffer ++ chunk
    let lines := combined.splitOn "\n"
    let newBuffer := (lines.getLast?).getD ""
    ((lines.dropLast).filterMap (fun line =>
      if line.startsWith "data: " then jsonParse (line.drop 6) else none)) ++
    processChunks jsonParse rest newBuffer

/-- `streamLLM` from `llmClient.ts`.  An abort before headers makes the
`fetch` itself reject (outside the try block, so the raw abort error
propagates); a non-ok status or missing body throws the corresponding
error; an abort observed while reading the body is caught and re-thrown as
the fixed `streamTimeoutMsg`, regardless of how many chunks were read. -/
def streamLLM (jsonParse : String → Option Val) (s : StreamInput) :
    StreamOutcome :=
  if s.abortBeforeHeaders then
    { events := [], result := .error .abortError }
  else if !(responseOk s.status) then
    { events := [], result := .error (.serviceError s.status) }
  else if !s.hasBody then
    { events := [], result := .error .noBody }
  else
    let events := processChunks jsonParse s.chunks ""
    if s.abortDuringRead then
      { events := events, result := .error (.timedOut streamTimeoutMsg) }
    else
      { events := events, result := .ok () }

/-- Turn lifecycle status. -/
inductive TurnStatus where
  | active
  | completed
  | failed
  deriving Repr, DecidableEq

/-- Errors of the turn state machine. -/
inductive TurnError where
  | turnConflict
  | unknownEvent
  deriving Repr, DecidableEq

/-- Modelled from the spec: the `turn-sequencer` module itself is not among
the sources (only its HTTP handlers in `turn.ts` and the `capsuleClient`
caller are); a Turn per §3 of the specification. -/
structure Turn where
  turnId : Nat
  sessionId : String
  userInput : String
  extensionChain : List String
  status : TurnStatus
  error : Option String
  deriving Repr, DecidableEq

/-- Modelled from the spec: the process-wide sequencer state — the current
Turn, if any turn was ever begun, plus a fresh-id counter. -/
structure SequencerState where
  current : Option Turn
  nextId : Nat
  deriving Repr, DecidableEq

/-- Modelled from the spec: `beginTurn(sessionId, userInput,
extensionChain?)` fails with TurnConflict if the current turn is Active
(leaving state untouched); otherwise it creates a new Turn with status
Active and returns it. -/
def beginTurn (st : SequencerState) (sessionId userInput : String)
    (extensionChain : List String) : Except TurnError Turn × SequencerState :=
  let fresh : Turn :=
    { turnId := st.nextId
      sessionId := sessionId
      userInput := userInput
      extensionChain := extensionChain
      status := .active
      error := none }
  match st.current with
  | some t =>
    if t.status = .active then (.error .turnConflict, st)
    else (.ok fresh, { current := some fresh, nextId := st.nextId + 1 })
  | none => (.ok fresh, { current := some fresh, nextId := st.nextId + 1 })

/-- Modelled from the spec: `failTurn(message)` is valid from Active and
moves the turn to Failed, storing the message. -/
def failTurn (st : SequencerState) (message : String) : SequencerState :=
  match st.current with
  | some t =>
    if t.status = .active then
      { st with current := some { t with status := .failed, error := some message } }
    else st
  | none => st

/-- The recognized event names (from `handleTurnEmit` in `turn.ts`). -/
def validEvents : List String :=
  ["extension-a.complete", "extension-b.complete", "extension-c.complete"]

/-- Modelled from the spec: `emit(eventName)` fails with UnknownEvent
outside the recognized set and transitions to Completed for
completion-class events. -/
def emitTurn (st : SequencerState) (event : String) :
    Except TurnError Unit × SequencerState :=
  if event ∈ validEvents then
    match st.current with
    | some t => (.ok (), { st with current := some { t with status := .completed } })
    | none => (.ok (), st)
  else (.error .unknownEvent, st)

/-- Number of active turns held by the sequencer state. -/
def activeTurns (st : SequencerState) : Nat :=
  match st.current with
  | some t => if t.status = .active then 1 else 0
  | none => 0

/-- Specification-level traversal failure: some step of the dotted-path
descent finds a value that is not object-typed or lacks the next segment. -/
def pathBroken : Val → List String → Bool
  | _, [] => false
  | v, f :: rest => !(jsObjLike v && hasProp v f) || pathBroken (getProp v f) rest

/-- First-some choice on optional values. -/
def optOr (a b : Option Val) : Option Val :=
  match a with
  | some v => some v
  | none => b

/-- Keys of an object value, in order. -/
def objKeys (v : Val) : List String := v.fieldsOf.map Prod.fst

/-- An empty marker table (concrete instantiations below do not exercise
`MARKER_MAP`). -/
def noMarkerMap : String → Option String := fun _ => none

/-- A store with no files at all. -/
def fsNone : FS := fun _ _ => .missing

/-- A store where every file exists and parses to `null` (an empty YAML
document). -/
def fsEmptyDoc : FS := fun _ _ => .parsed .null

/-- A store whose capsule file parses to the falsy scalar `0`. -/
def fsFalsySurface : FS :=
  fun _ name => if name = "capsule" then .parsed (.num 0) else .missing

/-- A store whose capsule file holds an object with a null `head`. -/
def fsHeadNull : FS :=
  fun _ name =>
    if name = "capsule" then .parsed (.obj [("head", .null)]) else .missing

/-- A `JSON.parse` stub that fails on every line. -/
def jp0 : String → Option Val := fun _ => none

/-- A streaming run: headers arrived, zero chunks were read, then the abort
signal fired. -/
def streamInZero : StreamInput :=
  { abortBeforeHeaders := false, status := 200, hasBody := true,
    chunks := [], abortDuringRead := true }

/-- A streaming run: headers arrived, one chunk was read, then the abort
signal fired. -/
def streamInOne : StreamInput :=
  { abortBeforeHeaders := false, status := 200, hasBody := true,
    chunks := ["data: tok\n"], abortDuringRead := true }

/-- A streaming run where the abort signal fired before headers. -/
def streamInConnect : StreamInput :=
  { abortBeforeHeaders := true, status := 200, hasBody := true,
    chunks := [], abortDuringRead := false }

/-- A wrapped function that fails twice and succeeds on the third attempt. -/
def fnRetryDemo : Nat → Except String Nat :=
  fun i => if i = 0 then .error "boom0" else if i = 1 then .error "boom1" else .ok 7

/-- First digr write of the accumulation scenario. -/
def digrWrite1 : Val := .obj [("decisions", .arr [.str "d1"])]

/-- Second digr write of the accumulation scenario. -/
def digrWrite2 : Val := .obj [("decisions", .arr [.str "d2"])]

/-- A digr write carrying every tracked array field explicitly. -/
def digrWrite1Full : Val :=
  .obj [("decisions", .arr [.str "d1"]), ("insights", .arr []),
        ("goals", .arr []), ("relationships", .arr []),
        ("patterns", .arr []), ("refinements", .arr []),
        ("milestone", .str "m")]

/-- Store after `createSession` and two digr writes. -/
def digrScenario : FS :=
  writeSurface (writeSurface (createSession fsNone "s") "s" .digr digrWrite1)
    "s" .digr digrWrite2

/-- First capsule write of the shallow-merge scenario (a `head` with two
keys, plus an extra top-level key). -/
def capsuleWrite1 : Val :=
  .obj [("head", .obj [("framing", .str "A"), ("keep", .str "Y")]),
        ("extra", .str "X")]

/-- Second capsule write of the shallow-merge scenario. -/
def capsuleWrite2 : Val := .obj [("head", .obj [("framing", .str "B")])]

/-- Store after `createSession` and the two capsule writes. -/
def capsuleScenario : FS :=
  writeSurface (writeSurface (createSession fsNone "s") "s" .capsule capsuleWrite1)
    "s" .capsule capsuleWrite2

/-- A turn already begun and still active. -/
def turnDemo : Turn :=
  { turnId := 0, sessionId := "s", userInput := "hi",
    extensionChain := ["extension-a"], status := .active, error := none }

/-- Sequencer state holding `turnDemo`. -/
def turnState1 : SequencerState := { current := some turnDemo, nextId := 1 }

/-- A concrete resolved variable for the capsule-assembly scenario. -/
def varDemo : ResolvedVariable :=
  { path := "capsule.head", marker := "HEAD", content := .null }

/-- The eight top-level keys a digr write stores, in order. -/
def digrFieldOrder : List String :=
  ["decisions", "insights", "goals", "relationships", "milestone",
   "contribution", "patterns", "refinements"]

/-- The six concatenating array fields of a digr write. -/
def digrArrayFields : List String :=
  ["decisions", "insights", "goals", "relationships", "patterns", "refinements"]

/-- The two nullish-coalesced scalar fields of a digr write. -/
def digrScalarFields : List String := ["milestone", "contribution"]

/-! ### Helper lemmas -/

theorem setFile_same (fs : FS) (sid name : String) (st : FileState) :
    setFile fs sid name st sid name = st := by
  simp [setFile]

theorem createSession_read (fs : FS) (sid : String) (k : SurfaceId) :
    createSession fs sid sid (surfaceName k) = .parsed (getEmptySurface k) := by
  cases k <;> simp [createSession, surfaceList, surfaceName, setFile]

theorem getField_eq_alookup_fieldsOf (v : Val) (k : String) :
    getField v k = alookup v.fieldsOf k := by
  cases v <;> simp [getField, Val.fieldsOf, alookup]

theorem alookup_append (a b : List (String × Val)) (k : String) :
    alookup (a ++ b) k = optOr (alookup a k) (alookup b k) := by
  induction a with
  | nil => simp [alookup, optOr]
  | cons p rest ih =>
    obtain ⟨k0, v0⟩ := p
    by_cases hk : k0 = k <;> simp [alookup, hk, ih, optOr]

theorem alookup_spread_map_some (c : List (String × Val)) :
    ∀ (e : List (String × Val)) (k : String) (w : Val), alookup e k = some w →
      alookup (e.map (fun p =>
        match alookup c p.1 with
        | some v => (p.1, v)
        | none => p)) k = some ((alookup c k).getD w) := by
  intro e
  induction e with
  | nil => intro k w h; simp [alookup] at h
  | cons p rest ih =>
    intro k w h
    obtain ⟨k0, v0⟩ := p
    by_cases hk : k0 = k
    · subst hk
      simp [alookup] at h
      subst h
      cases hc : alookup c k0 <;> simp [alookup, hc]
    · simp [alookup, hk] at h
      cases hc : alookup c k0 <;> simp [alookup, hk, hc] <;> exact ih k w h

theorem alookup_spread_map_none (c : List (String × Val)) :
    ∀ (e : List (String × Val)) (k : String), alookup e k = none →
      alookup (e.map (fun p =>
        match alookup c p.1 with
        | some v => (p.1, v)
        | none => p)) k = none := by
  intro e
  induction e with
  | nil => intro k _; simp [alookup]
  | cons p rest ih =>
    intro k h
    obtain ⟨k0, v0⟩ := p
    by_cases hk : k0 = k
    · simp [alookup, hk] at h
    · simp [alookup, hk] at h
      cases hc : alookup c k0 <;> simp [alookup, hk, hc] <;> exact ih k h

theorem alookup_filter_of_none (e : List (String × Val)) :
    ∀ (c : List (String × Val)) (k : String), alookup e k = none →
      alookup (c.filter (fun p => (alookup e p.1).isNone)) k = alookup c k := by
  intro c
  induction c with
  | nil => intro k _; simp
  | cons p rest ih =>
    intro k h
    obtain ⟨k1, v1⟩ := p
    by_cases hk : k1 = k
    · subst hk
      simp [List.filter_cons, h, alookup]
    · cases hp : (alookup e k1).isNone <;>
        simp [List.filter_cons, hp, alookup, hk, ih k h]

theorem alookup_spreadPairs (e c : List (String × Val)) (k : String) :
    alookup (spreadPairs e c) k = optOr (alookup c k) (alookup e k) := by
  cases he : alookup e k with
  | some w =>
    have hmap := alookup_spread_map_some c e k w he
    rw [spreadPairs, alookup_append, hmap]
    cases hc : alookup c k <;> simp [optOr]
  | none =>
    have hmap := alookup_spread_map_none c e k he
    have hfil := alookup_filter_of_none e c k he
    rw [spreadPairs, alookup_append, hmap, hfil]
    cases hc : alookup c k <;> simp [optOr]

theorem getField_shallowMerge (e c : Val) (k : String) :
    getField (shallowMerge e c) k = optOr (getField c k) (getField e k) := by
  rw [shallowMerge, getField_eq_alookup_fieldsOf, getField_eq_alookup_fieldsOf,
    getField_eq_alookup_fieldsOf]
  exact alookup_spreadPairs _ _ k

theorem descend_null_of_broken :
    ∀ (fp : List String) (v : Val), pathBroken v fp = true → descend v fp = .null := by
  intro fp
  induction fp with
  | nil => intro v h; simp [pathBroken] at h
  | cons f rest ih =>
    intro v h
    rw [pathBroken] at h
    rw [descend]
    cases htr : truthy v <;> cases hj : jsObjLike v <;> cases hp : hasProp v f <;>
      simp [htr, hj, hp] at h ⊢ <;> exact ih _ h

theorem foldl_push_map {α β : Type} (f : α → β) :
    ∀ (l : List α) (init : List β),
      l.foldl (fun acc v => acc ++ [f v]) init = init ++ l.map f := by
  intro l
  induction l with
  | nil => intro init; simp
  | cons x rest ih => intro init; simp [List.foldl_cons, ih]

theorem truthy_mergeDigrArrays (e i : Val) : truthy (mergeDigrArrays e i) = true := rfl

theorem truthy_shallowMerge (e c : Val) : truthy (shallowMerge e c) = true := rfl

theorem stripNull_some_of_ne (w : Val) (h : w ≠ .null) :
    stripNull (some w) = some w := by
  cases w <;> first | rfl | exact absurd rfl h

theorem nullishD_some_of_ne (w : Val) (b : Option Val) (h : w ≠ .null) :
    nullishD (some w) b = w := by
  cases w <;> first | rfl | exact absurd rfl h

theorem nullishD_none (w : Val) : nullishD none (some w) = w := by
  cases w <;> rfl

theorem readSurface_writeSurface_digr (fs : FS) (sid : String)
    (prior incoming : Val)
    (h : fs sid (surfaceName .digr) = .parsed prior) (ht : truthy prior = true) :
    readSurface (writeSurface fs sid .digr incoming) sid .digr
      = mergeDigrArrays prior incoming := by
  have h2 : fs sid "digr" = .parsed prior := h
  simp [readSurface, writeSurface, surfaceStrategy, surfaceName, setFile, h2,
    jsOr, ht, truthy_mergeDigrArrays]

theorem readSurface_writeSurface_shallow (fs : FS) (sid : String)
    (surf : SurfaceId) (hs : surf = .capsule ∨ surf = .sessionState)
    (prior content : Val)
    (h : fs sid (surfaceName surf) = .parsed prior) (ht : truthy prior = true) :
    readSurface (writeSurface fs sid surf content) sid surf
      = shallowMerge prior content := by
  rcases hs with rfl | rfl
  · have h2 : fs sid "capsule" = .parsed prior := h
    simp [readSurface, writeSurface, surfaceStrategy, surfaceName, setFile, h2,
      jsOr, ht, truthy_shallowMerge]
  · have h2 : fs sid "session-state" = .parsed prior := h
    simp [readSurface, writeSurface, surfaceStrategy, surfaceName, setFile, h2,
      jsOr, ht, truthy_shallowMerge]

theorem getField_mergeDigr_array (e i : Val) (f : String)
    (hf : f ∈ digrArrayFields) :
    getField (mergeDigrArrays e i) f
      = some (.arr (arrOrEmpty (getField e f) ++ arrOrEmpty (getField i f))) := by
  fin_cases hf <;> simp [mergeDigrArrays, getField, alookup]

theorem getField_mergeDigr_scalar (e i : Val) (f : String)
    (hf : f ∈ digrScalarFields) :
    getField (mergeDigrArrays e i) f
      = some (nullishD (getField i f) (getField e f)) := by
  fin_cases hf <;> simp [mergeDigrArrays, getField, alookup]

/-! ### Claim theorems -/

/-- C9: for every prior and incoming digr content, the stored result of a
digr write contains exactly the eight tracked top-level fields, in the
source's order; any other top-level field of the incoming or prior content
is silently dropped. -/
theorem digr_write_exact_fields (existing incoming : Val) (fs : FS) (sid : String) :
    objKeys (mergeDigrArrays existing incoming) = digrFieldOrder ∧
    objKeys (readSurface (writeSurface fs sid .digr incoming) sid .digr)
      = digrFieldOrder := by
  constructor
  · rfl
  · simp [readSurface, writeSurface, surfaceStrategy, surfaceName, setFile,
      jsOr, truthy, mergeDigrArrays, objKeys, Val.fieldsOf, digrFieldOrder]

/-- C10: a backing document that exists and parses to `null` (an empty YAML
document) reads back as `{}`, not as the kind's default shape; the default
is substituted exactly when reading or parsing throws, and `{}` differs
observably from every default shape. -/
theorem readSurface_null_doc_distinct (fs : FS) (sid : String) (k : SurfaceId) :
    (fs sid (surfaceName k) = .parsed .null → readSurface fs sid k = .obj []) ∧
    (∀ v, fs sid (surfaceName k) = .parsed v →
      readSurface fs sid k = jsOr v (.obj [])) ∧
    (fs sid (surfaceName k) = .missing →
      readSurface fs sid k = getEmptySurface k) ∧
    (fs sid (surfaceName k) = .unreadable →
      readSurface fs sid k = getEmptySurface k) ∧
    Val.obj [] ≠ getEmptySurface k := by
  refine ⟨?_, ?_, ?_, ?_, ?_⟩
  · intro h; simp [readSurface, h, jsOr, truthy]
  · intro v h; simp [readSurface, h]
  · intro h; simp [readSurface, h]
  · intro h; simp [readSurface, h]
  · cases k <;> simp [getEmptySurface]

/-- C10 witness: on a store whose files all parse to `null`, the capsule
surface reads back as `{}`. -/
theorem readSurface_null_doc_distinct_witness :
    fsEmptyDoc "s" (surfaceName .capsule) = .parsed .null ∧
    readSurface fsEmptyDoc "s" .capsule = .obj [] :=
  ⟨rfl, (readSurface_null_doc_distinct fsEmptyDoc "s" .capsule).1 rfl⟩

/-- C7 counterexample: a capsule document that exists and parses to `null`
reads back as `{}`, which is neither the parsed content (`null`) nor the
kind's default shape — so `readSurface` does not always return one of the
two outputs the claim enumerates. -/
theorem readSurface_empty_doc_counterexample :
    readSurface fsEmptyDoc "s" .capsule = Val.obj [] ∧
    Val.obj [] ≠ Val.null ∧
    Val.obj [] ≠ getEmptySurface .capsule := by
  refine ⟨rfl, by simp, by simp [getEmptySurface]⟩

/-- C7 (amended): `readSurface` never raises; it returns the kind's default
shape when reading or parsing throws, the parsed content when that content
is truthy, and `{}` when the document parses to a falsy value; immediately
after `createSession` every surface kind reads back its default shape
exactly. -/
theorem readSurface_default_policy (fs : FS) (sid : String) (k : SurfaceId)
    (v : Val) :
    (fs sid (surfaceName k) = .missing →
      readSurface fs sid k = getEmptySurface k) ∧
    (fs sid (surfaceName k) = .unreadable →
      readSurface fs sid k = getEmptySurface k) ∧
    (fs sid (surfaceName k) = .parsed v → truthy v = true →
      readSurface fs sid k = v) ∧
    (fs sid (surfaceName k) = .parsed v → truthy v = false →
      readSurface fs sid k = .obj []) ∧
    (∀ (fs2 : FS) (sid2 : String),
      readSurface (createSession fs2 sid2) sid2 k = getEmptySurface k) := by
  refine ⟨?_, ?_, ?_, ?_, ?_⟩
  · intro h; simp [readSurface, h]
  · intro h; simp [readSurface, h]
  · intro h ht; simp [readSurface, h, jsOr, ht]
  · intro h ht; simp [readSurface, h, jsOr, ht]
  · intro fs2 sid2
    cases k <;> simp [readSurface, createSession_read, jsOr, truthy, getEmptySurface]

/-- C7 witness: a missing capsule document reads back as the capsule
default shape. -/
theorem readSurface_default_policy_witness :
    fsNone "s" (surfaceName .capsule) = .missing ∧
    readSurface fsNone "s" .capsule = getEmptySurface .capsule :=
  ⟨rfl, (readSurface_default_policy fsNone "s" .capsule .null).1 rfl⟩

/-- C5: a digr write concatenates each tracked array field (prior then
incoming, no de-duplication), takes an incoming non-null scalar for
`milestone`/`contribution` and otherwise retains the prior value; in
particular writing `decisions:[d1]` then `decisions:[d2]` reads back as
`[d1, d2]`. -/
theorem writeSurface_digr_append (fs : FS) (sid : String)
    (prior incoming : Val) (pf qf : String → List Val)
    (h : fs sid (surfaceName .digr) = .parsed prior)
    (ht : truthy prior = true)
    (hp : ∀ f ∈ digrArrayFields, getField prior f = some (.arr (pf f)))
    (hq : ∀ f ∈ digrArrayFields, getField incoming f = some (.arr (qf f))) :
    (∀ f ∈ digrArrayFields,
      getField (readSurface (writeSurface fs sid .digr incoming) sid .digr) f
        = some (.arr (pf f ++ qf f))) ∧
    (∀ f ∈ digrScalarFields, ∀ w, getField incoming f = some w → w ≠ .null →
      getField (readSurface (writeSurface fs sid .digr incoming) sid .digr) f
        = some w) ∧
    (∀ f ∈ digrScalarFields, ∀ w, getField incoming f = none →
      getField prior f = some w → w ≠ .null →
      getField (readSurface (writeSurface fs sid .digr incoming) sid .digr) f
        = some w) ∧
    getField (readSurface digrScenario "s" .digr) "decisions"
      = some (.arr [.str "d1", .str "d2"]) := by
  have hread := readSurface_writeSurface_digr fs sid prior incoming h ht
  refine ⟨?_, ?_, ?_, rfl⟩
  · intro f hf
    rw [hread, getField_mergeDigr_array prior incoming f hf, hp f hf, hq f hf]
    simp [arrOrEmpty]
  · intro f hf w hw hnn
    rw [hread, getField_mergeDigr_scalar prior incoming f hf, hw,
      nullishD_some_of_ne w _ hnn]
  · intro f hf w hnone hw hnn
    rw [hread, getField_mergeDigr_scalar prior incoming f hf, hnone, hw,
      nullishD_none w]

/-- C5 witness: from a fresh session, writing a full digr record appends
its `decisions` entry to the (empty) default array. -/
theorem writeSurface_digr_append_witness :
    (createSession fsNone "s") "s" (surfaceName .digr)
        = .parsed (getEmptySurface .digr) ∧
    truthy (getEmptySurface .digr) = true ∧
    (∀ f ∈ digrArrayFields,
      getField (getEmptySurface .digr) f = some (.arr ((fun _ => []) f))) ∧
    (∀ f ∈ digrArrayFields,
      getField digrWrite1Full f
        = some (.arr ((fun g => if g = "decisions" then [Val.str "d1"] else []) f))) ∧
    (∀ f ∈ digrArrayFields,
      getField (readSurface
          (writeSurface (createSession fsNone "s") "s" .digr digrWrite1Full)
          "s" .digr) f
        = some (.arr ((fun _ => ([] : List Val)) f ++
            (fun g => if g = "decisions" then [Val.str "d1"] else []) f))) := by
  refine ⟨rfl, rfl, ?_, ?_, ?_⟩
  · intro f hf; fin_cases hf <;> rfl
  · intro f hf; fin_cases hf <;> rfl
  · exact (writeSurface_digr_append (createSession fsNone "s") "s"
      (getEmptySurface .digr) digrWrite1Full
      (fun _ => []) (fun g => if g = "decisions" then [Val.str "d1"] else [])
      rfl rfl
      (by intro f hf; fin_cases hf <;> rfl)
      (by intro f hf; fin_cases hf <;> rfl)).1

/-- C6: writing the capsule or session-state surface shallow-merges: each
incoming top-level key overwrites, absent keys are preserved, and a nested
object such as `head` is replaced wholesale (no deep merge), as the
framing-A/framing-B scenario shows. -/
theorem writeSurface_shallow_merge (fs : FS) (sid : String) (surf : SurfaceId)
    (prior content : Val) (k : String)
    (hs : surf = .capsule ∨ surf = .sessionState)
    (h : fs sid (surfaceName surf) = .parsed prior)
    (ht : truthy prior = true) :
    (getField (readSurface (writeSurface fs sid surf content) sid surf) k
      = optOr (getField content k) (getField prior k)) ∧
    (∀ w, getField content k = some w →
      getField (readSurface (writeSurface fs sid surf content) sid surf) k
        = some w) ∧
    (getField content k = none →
      getField (readSurface (writeSurface fs sid surf content) sid surf) k
        = getField prior k) ∧
    getField (readSurface capsuleScenario "s" .capsule) "head"
      = some (.obj [("framing", .str "B")]) ∧
    getField (readSurface capsuleScenario "s" .capsule) "extra"
      = some (.str "X") := by
  have hread := readSurface_writeSurface_shallow fs sid surf hs prior content h ht
  refine ⟨?_, ?_, ?_, rfl, rfl⟩
  · rw [hread, getField_shallowMerge]
  · intro w hw
    rw [hread, getField_shallowMerge, hw]
    rfl
  · intro hn
    rw [hread, getField_shallowMerge, hn]
    rfl

/-- C3: `withRetry` (as called, `maxRetries = 3`) executes at most 3
attempts; the elapsed delay before each attempt after the first follows
`RETRY_DELAYS` indexed by attempt number; a function failing twice then
succeeding returns the success after exactly 3 attempts with gaps 0 ms and
1000 ms; if all attempts fail, the last error is raised. -/
theorem withRetry_policy {α : Type} (fn : Nat → Except String α)
    (e0 e1 e2 : String) (v : α) :
    ((withRetry fn 3).attempts ≤ 3) ∧
    ((withRetry fn 3).gaps = RETRY_DELAYS.take ((withRetry fn 3).attempts - 1)) ∧
    (fn 0 = .error e0 → fn 1 = .error e1 → fn 2 = .ok v →
      withRetry fn 3 = { result := .ok v, attempts := 3, gaps := [0, 1000] }) ∧
    (fn 0 = .error e0 → fn 1 = .error e1 → fn 2 = .error e2 →
      (withRetry fn 3).result = .error e2 ∧ (withRetry fn 3).attempts = 3) := by
  cases h0 : fn 0 <;> cases h1 : fn 1 <;> cases h2 : fn 2 <;>
    simp [withRetry, withRetryGo, retrySleep, RETRY_DELAYS, h0, h1, h2]

/-- C3 witness: the fails-twice-then-succeeds schedule on a concrete
function. -/
theorem withRetry_policy_witness :
    fnRetryDemo 0 = .error "boom0" ∧ fnRetryDemo 1 = .error "boom1" ∧
    fnRetryDemo 2 = .ok 7 ∧
    withRetry fnRetryDemo 3
      = { result := .ok 7, attempts := 3, gaps := [0, 1000] } :=
  ⟨rfl, rfl, rfl,
    (withRetry_policy fnRetryDemo "boom0" "boom1" "unused" 7).2.2.1 rfl rfl rfl⟩

/-- C2 counterexample: an abort observed after headers but before any chunk
is reported with the very same stream-timeout failure as an abort after one
chunk — the two reports are not distinguishable, and the zero-data case is
not reported as a distinct connect-timeout failure. -/
theorem streamLLM_timeout_counterexample :
    streamInZero.chunks.length = 0 ∧
    streamInOne.chunks.length = 1 ∧
    (streamLLM jp0 streamInZero).result
      = .error (.timedOut streamTimeoutMsg) ∧
    (streamLLM jp0 streamInOne).result
      = .error (.timedOut streamTimeoutMsg) := by
  refine ⟨rfl, rfl, rfl, rfl⟩

/-- C2 (amended): a cancellation firing before response headers surfaces as
the raw fetch abort error; a cancellation observed while reading the body —
zero chunks read or more — is reported as the one fixed stream-timeout
error; callers can distinguish the connect-phase abort from the read-phase
abort, but not a zero-chunk stall after headers from a post-chunk stall. -/
theorem streamLLM_abort_reporting (jp : String → Option Val)
    (s : StreamInput) :
    (s.abortBeforeHeaders = true →
      streamLLM jp s = { events := [], result := .error .abortError }) ∧
    (s.abortBeforeHeaders = false → responseOk s.status = true →
      s.hasBody = true → s.abortDuringRead = true →
      (streamLLM jp s).result = .error (.timedOut streamTimeoutMsg)) ∧
    StreamFailure.abortError ≠ .timedOut streamTimeoutMsg := by
  refine ⟨?_, ?_, by simp⟩
  · intro h; simp [streamLLM, h]
  · intro h1 h2 h3 h4; simp [streamLLM, h1, h2, h3, h4]

/-- C2 witness: the two reporting regimes at concrete inputs. -/
theorem streamLLM_abort_reporting_witness :
    (streamInConnect.abortBeforeHeaders = true ∧
      streamLLM jp0 streamInConnect
        = { events := [], result := .error .abortError }) ∧
    (streamInZero.abortBeforeHeaders = false ∧
      responseOk streamInZero.status = true ∧
      streamInZero.hasBody = true ∧ streamInZero.abortDuringRead = true ∧
      (streamLLM jp0 streamInZero).result
        = .error (.timedOut streamTimeoutMsg)) :=
  ⟨⟨rfl, (streamLLM_abort_reporting jp0 streamInConnect).1 rfl⟩,
   ⟨rfl, rfl, rfl, rfl,
     (streamLLM_abort_reporting jp0 streamInZero).2.1 rfl rfl rfl rfl⟩⟩

/-- C4 counterexample: with a capsule document parsing to the falsy scalar
`0`, the multi-segment path `capsule.head` descends into a non-object value
(`pathBroken`), yet the resolved content is `0`, not `null`: the source's
`if (content && fieldPath.length > 0)` guard skips the traversal whenever
the surface value is falsy. -/
theorem resolveVariable_falsy_surface_counterexample :
    (resolveVariable noMarkerMap fsFalsySurface "sess" "capsule.head").content
      = Val.num 0 ∧
    pathBroken (Val.num 0) ["head"] = true ∧
    Val.num 0 ≠ Val.null := by
  refine ⟨rfl, rfl, by simp⟩

/-- C4 (amended): `resolveVariable` never raises; content is `null` when
the surface is absent or unreadable, and when a truthy surface's traversal
hits a missing segment or a non-object value — but a surface parsing to a
falsy value is returned unchanged as the content, even under a
multi-segment path. -/
theorem resolveVariable_null_on_failure (mm : String → Option String)
    (fs : FS) (sid path : String) :
    (fs sid ((jsSplitDot path).headD "") = .missing →
      (resolveVariable mm fs sid path).content = .null) ∧
    (fs sid ((jsSplitDot path).headD "") = .unreadable →
      (resolveVariable mm fs sid path).content = .null) ∧
    (∀ v, fs sid ((jsSplitDot path).headD "") = .parsed v →
      truthy v = true →
      pathBroken v ((jsSplitDot path).drop 1) = true →
      (resolveVariable mm fs sid path).content = .null) ∧
    (∀ v, fs sid ((jsSplitDot path).headD "") = .parsed v →
      truthy v = false →
      (resolveVariable mm fs sid path).content = v) := by
  refine ⟨?_, ?_, ?_, ?_⟩
  · intro h
    cases hsp : jsSplitDot path with
    | nil =>
      rw [hsp] at h; simp [List.headD] at h
      simp [resolveVariable, hsp, h, truthy]
    | cons s0 rest =>
      rw [hsp] at h; simp [List.headD] at h
      simp [resolveVariable, hsp, h, truthy]
  · intro h
    cases hsp : jsSplitDot path with
    | nil =>
      rw [hsp] at h; simp [List.headD] at h
      simp [resolveVariable, hsp, h, truthy]
    | cons s0 rest =>
      rw [hsp] at h; simp [List.headD] at h
      simp [resolveVariable, hsp, h, truthy]
  · intro v h ht hbroken
    cases hsp : jsSplitDot path with
    | nil =>
      rw [hsp] at hbroken; simp [pathBroken] at hbroken
    | cons s0 rest =>
      rw [hsp] at h hbroken
      simp [List.headD] at h
      cases rest with
      | nil => simp [pathBroken] at hbroken
      | cons f rest2 =>
        simp at hbroken
        simp [resolveVariable, hsp, h, ht]
        exact descend_null_of_broken _ _ hbroken
  · intro v h ht
    cases hsp : jsSplitDot path with
    | nil =>
      rw [hsp] at h; simp [List.headD] at h
      simp [resolveVariable, hsp, h, ht]
    | cons s0 rest =>
      rw [hsp] at h; simp [List.headD] at h
      simp [resolveVariable, hsp, h, ht]

/-- C4 witness: a truthy capsule object whose `head` is null makes the path
`capsule.head.x` break mid-traversal, and the content resolves to `null`. -/
theorem resolveVariable_null_on_failure_witness :
    fsHeadNull "sess" ((jsSplitDot "capsule.head.x").headD "")
      = .parsed (.obj [("head", .null)]) ∧
    truthy (.obj [("head", .null)]) = true ∧
    pathBroken (.obj [("head", .null)]) ((jsSplitDot "capsule.head.x").drop 1)
      = true ∧
    (resolveVariable noMarkerMap fsHeadNull "sess" "capsule.head.x").content
      = .null :=
  ⟨rfl, rfl, rfl,
    (resolveVariable_null_on_failure noMarkerMap fsHeadNull "sess"
      "capsule.head.x").2.2.1 (.obj [("head", .null)]) rfl rfl rfl⟩

/-- C1: `beginTurn` on an Active turn fails with TurnConflict leaving the
state untouched; from a terminal turn (after `failTurn` or a completion
event) it succeeds and installs a fresh Active turn; the sequencer state
holds at most one active turn at any instant.  (The sequencer module is
modelled from the spec; it is not among the sources.) -/
theorem beginTurn_single_flight (st : SequencerState) (t : Turn)
    (sid ui sid2 ui2 : String) (ec ec2 : List String) (msg ev : String) :
    (st.current = some t → t.status = .active →
      beginTurn st sid ui ec = (.error .turnConflict, st)) ∧
    (st.current = some t → t.status ≠ .active →
      ∃ t2, beginTurn st sid ui ec
          = (.ok t2, { current := some t2, nextId := st.nextId + 1 })
        ∧ t2.status = .active) ∧
    (st.current = some t → t.status = .active →
      (failTurn st msg).current
        = some { t with status := .failed, error := some msg } ∧
      ∃ t2, beginTurn (failTurn st msg) sid2 ui2 ec2
          = (.ok t2, { current := some t2, nextId := st.nextId + 1 })
        ∧ t2.status = .active) ∧
    (st.current = some t → ev ∈ validEvents →
      ∃ t2, beginTurn (emitTurn st ev).2 sid2 ui2 ec2
          = (.ok t2, { current := some t2, nextId := st.nextId + 1 })
        ∧ t2.status = .active) ∧
    activeTurns st ≤ 1 := by
  refine ⟨?_, ?_, ?_, ?_, ?_⟩
  · intro h ha; simp [beginTurn, h, ha]
  · intro h ha
    refine ⟨{ turnId := st.nextId, sessionId := sid, userInput := ui,
              extensionChain := ec, status := .active, error := none },
            ?_, rfl⟩
    simp [beginTurn, h, ha]
  · intro h ha
    constructor
    · simp [failTurn, h, ha]
    · refine ⟨{ turnId := st.nextId, sessionId := sid2, userInput := ui2,
                extensionChain := ec2, status := .active, error := none },
              ?_, rfl⟩
      simp [beginTurn, failTurn, h, ha]
  · intro h hev
    refine ⟨{ turnId := st.nextId, sessionId := sid2, userInput := ui2,
              extensionChain := ec2, status := .active, error := none },
            ?_, rfl⟩
    simp [beginTurn, emitTurn, h, hev]
  · rcases st with ⟨cur, nid⟩
    cases cur <;> simp [activeTurns] <;> split <;> simp

/-- C1 witness: begin, conflicting begin, fail, successful re-begin on
concrete state. -/
theorem beginTurn_single_flight_witness :
    turnState1.current = some turnDemo ∧
    turnDemo.status = .active ∧
    beginTurn turnState1 "s" "again" [] = (.error .turnConflict, turnState1) ∧
    (failTurn turnState1 "boom").current
      = some { turnDemo with status := .failed, error := some "boom" } ∧
    (∃ t2, beginTurn (failTurn turnState1 "boom") "s" "next" []
        = (.ok t2, { current := some t2, nextId := turnState1.nextId + 1 })
      ∧ t2.status = .active) :=
  ⟨rfl, rfl,
    (beginTurn_single_flight turnState1 turnDemo "s" "again" "s" "next" [] []
      "boom" "extension-a.complete").1 rfl rfl,
    ((beginTurn_single_flight turnState1 turnDemo "s" "again" "s" "next" [] []
      "boom" "extension-a.complete").2.2.1 rfl rfl).1,
    ((beginTurn_single_flight turnState1 turnDemo "s" "again" "s" "next" [] []
      "boom" "extension-a.complete").2.2.1 rfl rfl).2⟩

/-- C8: `assembleCapsule` emits one section per resolved variable, in input
order, separated by blank lines, and appends a final `[USER]` section with
the input verbatim exactly when `userInput` is provided and non-empty. -/
theorem assembleCapsule_order_and_user (rv : List ResolvedVariable)
    (u : String) :
    ((assembleCapsule rv none).text
      = String.intercalate "\n\n" (rv.map formatSection)) ∧
    ((assembleCapsule rv (some "")).text
      = String.intercalate "\n\n" (rv.map formatSection)) ∧
    (u ≠ "" → (assembleCapsule rv (some u)).text
      = String.intercalate "\n\n"
          (rv.map formatSection ++ ["[USER]" ++ "\n" ++ u])) ∧
    (∀ ui, (assembleCapsule rv ui).vars = rv) := by
  refine ⟨?_, ?_, ?_, ?_⟩
  · simp [assembleCapsule, jsTruthyOptStr, foldl_push_map]
  · simp [assembleCapsule, jsTruthyOptStr, foldl_push_map]
  · intro hu; simp [assembleCapsule, jsTruthyOptStr, hu, foldl_push_map]
  · intro ui; simp [assembleCapsule]

/-- C8 witness: one resolved variable plus a non-empty user input yields
the variable's section followed by the `[USER]` section. -/
theorem assembleCapsule_order_and_user_witness :
    "hi" ≠ "" ∧
    (assembleCapsule [varDemo] (some "hi")).text
      = String.intercalate "\n\n"
          ([varDemo].map formatSection ++ ["[USER]" ++ "\n" ++ "hi"]) :=
  ⟨by decide,
    (assembleCapsule_order_and_user [varDemo] "hi").2.2.1 (by decide)⟩

/-- C6 witness: after `createSession` and one capsule write, an incoming
top-level key overwrites the default and the `extra` key reads back. -/
theorem writeSurface_shallow_merge_witness :
    (createSession fsNone "s") "s" (surfaceName .capsule)
        = .parsed (getEmptySurface .capsule) ∧
    truthy (getEmptySurface .capsule) = true ∧
    getField capsuleWrite1 "extra" = some (.str "X") ∧
    getField (readSurface
        (writeSurface (createSession fsNone "s") "s" .capsule capsuleWrite1)
        "s" .capsule) "extra" = some (.str "X") :=
  ⟨rfl, rfl, rfl,
    (writeSurface_shallow_merge (createSession fsNone "s") "s" .capsule
      (getEmptySurface .capsule) capsuleWrite1 "extra"
      (Or.inl rfl) rfl rfl).2.1 (.str "X") rfl⟩

end AiosPro
